import Mathlib

/-!
Shallow embedding of the ship-assignment MILP model generators of this
repository: class ModeloPlanificacionBarcos (file ShipAssignment.py, the
minimize-total-assignments model) and class ModeloPlanificacionBarcosBeta
(file Modelo2.py, the minimize-maximum-workload model).

The Python code builds a Pyomo ConcreteModel: it declares binary variables
X(i,j,k) and Y(i,j,k) (and, in the Beta model, a free variable Z), and for
each constraint family calls a rule function on every index tuple of the
family's index sets, where the rule either returns a linear inequality,
returns Constraint.Skip (embedded as Option.none), or raises a Python
exception such as IndexError or KeyError (embedded as Except.error).

Constraints are embedded as concrete data (lists of coefficient-atom terms
plus an integer constant on each side), generated in exactly the iteration
order of the Python generator expressions, so that structural identity of
generated constraint sets is expressible.  Person identifiers are embedded
as naturals, since the code indexes the availability matrix by i - 1.
Feasibility of an assignment of rational values to the variables is the
conjunction of the binary variable domains and of every generated
constraint.
-/

/-- A decision variable of the model: X(i,j,k), Y(i,j,k), or Z. -/
inductive Atom : Type
  | X (i j k : Nat)
  | Y (i j k : Nat)
  | Z
deriving DecidableEq, Repr, Inhabited

/-- A linear expression: a list of (integer coefficient, variable) terms plus
an integer constant, kept in the order the Python generator produced them. -/
structure LinExpr : Type where
  terms : List (Int × Atom)
  const : Int
deriving DecidableEq, Repr, Inhabited

/-- Value of a linear expression under a rational assignment of the atoms. -/
def LinExpr.evalQ (e : LinExpr) (v : Atom → ℚ) : ℚ :=
  (e.const : ℚ) + (e.terms.map (fun t => (t.1 : ℚ) * v t.2)).sum

/-- A linear constraint: lhs less-or-equal rhs, or lhs greater-or-equal rhs,
as written in the source rule. -/
inductive Constr : Type
  | le (lhs rhs : LinExpr)
  | ge (lhs rhs : LinExpr)
deriving DecidableEq, Repr, Inhabited

/-- Satisfaction of a constraint by a rational assignment. -/
def Constr.holds (v : Atom → ℚ) : Constr → Bool
  | .le lhs rhs => decide (lhs.evalQ v ≤ rhs.evalQ v)
  | .ge lhs rhs => decide (rhs.evalQ v ≤ lhs.evalQ v)

/-- Value of a linear expression under an integer assignment (used to
evaluate concrete integral solution points by computation). -/
def LinExpr.evalZ (e : LinExpr) (v : Atom → ℤ) : ℤ :=
  e.const + (e.terms.map (fun t => t.1 * v t.2)).sum

/-- Satisfaction of a constraint by an integer assignment. -/
def Constr.holdsZ (v : Atom → ℤ) : Constr → Bool
  | .le lhs rhs => decide (lhs.evalZ v ≤ rhs.evalZ v)
  | .ge lhs rhs => decide (rhs.evalZ v ≤ lhs.evalZ v)

/-- An integer assignment viewed as a rational assignment of the model
variables. -/
def castQ (v : Atom → ℤ) : Atom → ℚ := fun a => ((v a : ℤ) : ℚ)

/-- Python list indexing: l[idx] for a possibly negative index; none embeds
an IndexError. -/
def pyGet (l : List α) (idx : Int) : Option α :=
  if 0 ≤ idx then l.get? idx.toNat
  else if idx.natAbs ≤ l.length then l.get? (l.length - idx.natAbs)
  else none

/-- Python dict lookup d[r] on a role-requirement record; none embeds a
KeyError. -/
def lookupStr (d : List (String × Int)) (r : String) : Option Int :=
  (d.find? (fun p => p.1 == r)).map (·.2)

/-- The constructor arguments of both model classes (the fields set by
the Python init method): N ships, D days, T stint length, P rest days,
availability matrix A, per-ship role requirements R, the person-to-role
dict personas (as an association list in insertion order), and the
max-days cap. -/
structure Entrada : Type where
  N : Nat
  D : Nat
  T : Nat
  P : Nat
  A : List (List Int)
  R : List (List (String × Int))
  personas : List (Nat × String)
  max_dias_consecutivos : Int
deriving DecidableEq, Repr, Inhabited

/-- The set m.I: the person identifiers, in roster order. -/
def mI (e : Entrada) : List Nat := e.personas.map (·.1)

/-- The set m.J = RangeSet(1, N): ships 1..N. -/
def mJ (e : Entrada) : List Nat := List.range' 1 e.N

/-- The set m.K = RangeSet(1, D): days 1..D. -/
def mK (e : Entrada) : List Nat := List.range' 1 e.D

/-- The dict lookup personas[i]. -/
def rolDe (e : Entrada) (i : Nat) : Option String :=
  (e.personas.find? (fun p => p.1 == i)).map (·.2)

/-- The availability lookup A[i-1][k-1], with Python list-index semantics. -/
def availLookup (e : Entrada) (i k : Nat) : Option Int :=
  (pyGet e.A ((i : Int) - 1)).bind (fun row => pyGet row ((k : Int) - 1))

/-- Error-propagating map over a list, mirroring Pyomo calling a fallible
rule eagerly on every index tuple and the first raised exception aborting
model construction. -/
def mapME (f : α → Except String β) : List α → Except String (List β)
  | [] => .ok []
  | a :: as =>
    match f a with
    | .error s => .error s
    | .ok b =>
      match mapME f as with
      | .error s => .error s
      | .ok bs => .ok (b :: bs)

/-- Family builder for a skippable rule indexed by (i, j, k): the indexed
constraints generated over I x J x K in iteration order, omitting the
Skip indices. -/
def fam3 (rule : Nat → Nat → Nat → Option Constr) (I J K : List Nat) :
    List ((Nat × Nat × Nat) × Constr) :=
  I.flatMap fun i => J.flatMap fun j =>
    K.filterMap fun k => (rule i j k).map (fun c => ((i, j, k), c))

namespace ModeloPlanificacionBarcos

/-- The objective of the minimize-total model: sum of X(i,j,k) over all
persons, ships and days, in iteration order. -/
def regla_objetivo (e : Entrada) : LinExpr :=
  { terms := (mI e).flatMap fun i => (mJ e).flatMap fun j =>
      (mK e).map fun k => ((1 : Int), Atom.X i j k)
    const := 0 }

/-- Rule regla_requisito_rol: the count of persons of role r assigned to
ship j on day k is at least R[j-1][r]; a missing ship entry or role key
raises. -/
def regla_requisito_rol (e : Entrada) (j : Nat) (r : String) (k : Nat) :
    Except String Constr :=
  match pyGet e.R ((j : Int) - 1) with
  | none => .error "IndexError: R"
  | some dj =>
    match lookupStr dj r with
    | none => .error "KeyError: R"
    | some req =>
      .ok (.ge { terms := ((mI e).filter (fun i => rolDe e i == some r)).map
                    (fun i => ((1 : Int), Atom.X i j k))
                 const := 0 }
               { terms := [], const := req })

/-- Rule regla_dias_consecutivos: for k at most D - T, the sum of X(i,jp,t)
over other ships jp and days t in k+1 .. k+T is at most
T * (1 - Y(i,j,k)) + X(i,j,k); otherwise Constraint.Skip. -/
def regla_dias_consecutivos (e : Entrada) (i j k : Nat) : Option Constr :=
  if (k : Int) ≤ (e.D : Int) - (e.T : Int) then
    some (.le { terms := ((mJ e).filter (fun jp => jp ≠ j)).flatMap fun jp =>
                  (List.range' (k + 1) e.T).map fun t => ((1 : Int), Atom.X i jp t)
                const := 0 }
              { terms := [(-(e.T : Int), Atom.Y i j k), ((1 : Int), Atom.X i j k)]
                const := (e.T : Int) })
  else none

/-- Rule regla_cambio_buque: textually the same body as
regla_dias_consecutivos in the source. -/
def regla_cambio_buque (e : Entrada) (i j k : Nat) : Option Constr :=
  if (k : Int) ≤ (e.D : Int) - (e.T : Int) then
    some (.le { terms := ((mJ e).filter (fun jp => jp ≠ j)).flatMap fun jp =>
                  (List.range' (k + 1) e.T).map fun t => ((1 : Int), Atom.X i jp t)
                const := 0 }
              { terms := [(-(e.T : Int), Atom.Y i j k), ((1 : Int), Atom.X i j k)]
                const := (e.T : Int) })
  else none

/-- Rule regla_dias_descanso: for k at most D - T - P, the sum of X(i,j,t)
over t in range(k+T, k+T+P), that is days k+T .. k+T+P-1, is at most
P * (1 - Y(i,j,k)); otherwise Constraint.Skip. -/
def regla_dias_descanso (e : Entrada) (i j k : Nat) : Option Constr :=
  if (k : Int) ≤ (e.D : Int) - (e.T : Int) - (e.P : Int) then
    some (.le { terms := (List.range' (k + e.T) e.P).map fun t =>
                  ((1 : Int), Atom.X i j t)
                const := 0 }
              { terms := [(-(e.P : Int), Atom.Y i j k)], const := (e.P : Int) })
  else none

/-- Rule regla_asignacion_mismo_dia: person i works at most one ship on
day k. -/
def regla_asignacion_mismo_dia (e : Entrada) (i k : Nat) : Constr :=
  .le { terms := (mJ e).map fun j => ((1 : Int), Atom.X i j k), const := 0 }
     { terms := [], const := 1 }

/-- Rule regla_max_dias_consecutivos: the sum of X(i,j,k) over all ships j
and all days k in range(1, D+1) is at most max_dias_consecutivos. -/
def regla_max_dias_consecutivos (e : Entrada) (i : Nat) : Constr :=
  .le { terms := (mJ e).flatMap fun j => (List.range' 1 e.D).map fun k =>
          ((1 : Int), Atom.X i j k)
        const := 0 }
     { terms := [], const := e.max_dias_consecutivos }

/-- Rule regla_disponibilidad: X(i,j,k) is at most A[i-1][k-1]; a missing
matrix entry raises IndexError. -/
def regla_disponibilidad (e : Entrada) (i j k : Nat) : Except String Constr :=
  match availLookup e i k with
  | none => .error "IndexError: A"
  | some a =>
    .ok (.le { terms := [((1 : Int), Atom.X i j k)], const := 0 }
            { terms := [], const := a })

/-- The built model: index sets, objective, and each named constraint
family as its list of indexed constraints in generation order. -/
structure Modelo : Type where
  I : List Nat
  J : List Nat
  K : List Nat
  roles : List String
  OBJ : LinExpr
  requisito_rol : List ((Nat × String × Nat) × Constr)
  dias_consecutivos : List ((Nat × Nat × Nat) × Constr)
  cambio_buque : List ((Nat × Nat × Nat) × Constr)
  dias_descanso : List ((Nat × Nat × Nat) × Constr)
  asignacion_mismo_dia : List ((Nat × Nat) × Constr)
  max_dias_consecutivos : List (Nat × Constr)
  disponibilidad : List ((Nat × Nat × Nat) × Constr)
deriving DecidableEq, Repr, Inhabited

/-- The index product J x roles x K of the requisito_rol family, in Pyomo
iteration order. -/
def idxJRK (e : Entrada) (roles : List String) : List (Nat × String × Nat) :=
  (mJ e).flatMap fun j => roles.flatMap fun r => (mK e).map fun k => (j, r, k)

/-- The index product I x J x K of the disponibilidad family. -/
def idxIJK (e : Entrada) : List (Nat × Nat × Nat) :=
  (mI e).flatMap fun i => (mJ e).flatMap fun j => (mK e).map fun k => (i, j, k)

/-- Assembles the model record from the parts whose construction cannot
raise, given the parts whose construction can. -/
def construir (e : Entrada) (roles : List String)
    (req : List ((Nat × String × Nat) × Constr))
    (disp : List ((Nat × Nat × Nat) × Constr)) : Modelo :=
  { I := mI e
    J := mJ e
    K := mK e
    roles := roles
    OBJ := regla_objetivo e
    requisito_rol := req
    dias_consecutivos := fam3 (regla_dias_consecutivos e) (mI e) (mJ e) (mK e)
    cambio_buque := fam3 (regla_cambio_buque e) (mI e) (mJ e) (mK e)
    dias_descanso := fam3 (regla_dias_descanso e) (mI e) (mJ e) (mK e)
    asignacion_mismo_dia := (mI e).flatMap fun i => (mK e).map fun k =>
      ((i, k), regla_asignacion_mismo_dia e i k)
    max_dias_consecutivos := (mI e).map fun i =>
      (i, regla_max_dias_consecutivos e i)
    disponibilidad := disp }

/-- The method crear_modelo of class ModeloPlanificacionBarcos: builds the
sets, variables, objective and the seven constraint families; a Python
exception while evaluating R[0], a requisito_rol rule, or a
disponibilidad rule aborts construction. -/
def crear_modelo (e : Entrada) : Except String Modelo := do
  let d0 ← match e.R.head? with
    | some d => Except.ok d
    | none => Except.error "IndexError: R[0]"
  let roles := d0.map (·.1)
  let req ← mapME (fun x => (regla_requisito_rol e x.1 x.2.1 x.2.2).map
    (fun c => (x, c))) (idxJRK e roles)
  let disp ← mapME (fun x => (regla_disponibilidad e x.1 x.2.1 x.2.2).map
    (fun c => (x, c))) (idxIJK e)
  pure (construir e roles req disp)

/-- A rational value is a valid value of a Binary Pyomo variable. -/
def binQ (q : ℚ) : Bool := decide (q = 0 ∨ q = 1)

/-- Feasibility of an assignment for the model, except for the cambio_buque
family: the X and Y variables over the index space take binary values and
every generated constraint of the other six families holds. -/
def FeasibleSinCambioB (m : Modelo) (v : Atom → ℚ) : Bool :=
  (m.I.all fun i => m.J.all fun j => m.K.all fun k =>
      binQ (v (.X i j k)) && binQ (v (.Y i j k)))
  && (m.requisito_rol.all fun p => p.2.holds v)
  && (m.dias_consecutivos.all fun p => p.2.holds v)
  && (m.dias_descanso.all fun p => p.2.holds v)
  && (m.asignacion_mismo_dia.all fun p => p.2.holds v)
  && (m.max_dias_consecutivos.all fun p => p.2.holds v)
  && (m.disponibilidad.all fun p => p.2.holds v)

/-- Full feasibility: all seven generated families hold and the binary
domains are respected. -/
def FeasibleB (m : Modelo) (v : Atom → ℚ) : Bool :=
  FeasibleSinCambioB m v && (m.cambio_buque.all fun p => p.2.holds v)

/-- An integer value is a valid value of a Binary Pyomo variable. -/
def binZ (n : ℤ) : Bool := decide (n = 0 ∨ n = 1)

/-- Integer-assignment counterpart of FeasibleSinCambioB, used to check
concrete integral solution points by computation. -/
def FeasibleSinCambioZ (m : Modelo) (v : Atom → ℤ) : Bool :=
  (m.I.all fun i => m.J.all fun j => m.K.all fun k =>
      binZ (v (.X i j k)) && binZ (v (.Y i j k)))
  && (m.requisito_rol.all fun p => p.2.holdsZ v)
  && (m.dias_consecutivos.all fun p => p.2.holdsZ v)
  && (m.dias_descanso.all fun p => p.2.holdsZ v)
  && (m.asignacion_mismo_dia.all fun p => p.2.holdsZ v)
  && (m.max_dias_consecutivos.all fun p => p.2.holdsZ v)
  && (m.disponibilidad.all fun p => p.2.holdsZ v)

/-- Integer-assignment counterpart of FeasibleB. -/
def FeasibleZ (m : Modelo) (v : Atom → ℤ) : Bool :=
  FeasibleSinCambioZ m v && (m.cambio_buque.all fun p => p.2.holdsZ v)

end ModeloPlanificacionBarcos

namespace ModeloPlanificacionBarcosBeta

/-- The objective of the minimize-maximum-workload model: the single
variable Z. -/
def regla_objetivo : LinExpr := { terms := [((1 : Int), Atom.Z)], const := 0 }

/-- Rule regla_requisito_rol of the Beta model (textually the same as in
the minimize-total model). -/
def regla_requisito_rol (e : Entrada) (j : Nat) (r : String) (k : Nat) :
    Except String Constr :=
  match pyGet e.R ((j : Int) - 1) with
  | none => .error "IndexError: R"
  | some dj =>
    match lookupStr dj r with
    | none => .error "KeyError: R"
    | some req =>
      .ok (.ge { terms := ((mI e).filter (fun i => rolDe e i == some r)).map
                    (fun i => ((1 : Int), Atom.X i j k))
                 const := 0 }
               { terms := [], const := req })

/-- Rule regla_dias_descanso of the Beta model, indexed by (i, k): for k at
most D - T - P, the sum of X(i,j,t) over t in range(k+T+1, k+T+P+1) and all
ships j is at most P * (1 - sum of Y(i,j,k) over all ships j); otherwise
Constraint.Skip.  (The dias_consecutivos rule of this class is commented
out in the source and never invoked, so it is not embedded.) -/
def regla_dias_descanso (e : Entrada) (i k : Nat) : Option Constr :=
  if (k : Int) ≤ (e.D : Int) - (e.T : Int) - (e.P : Int) then
    some (.le { terms := (List.range' (k + e.T + 1) e.P).flatMap fun t =>
                  (mJ e).map fun j => ((1 : Int), Atom.X i j t)
                const := 0 }
              { terms := (mJ e).map fun j => (-(e.P : Int), Atom.Y i j k)
                const := (e.P : Int) })
  else none

/-- Rule regla_asignacion_mismo_dia of the Beta model. -/
def regla_asignacion_mismo_dia (e : Entrada) (i k : Nat) : Constr :=
  .le { terms := (mJ e).map fun j => ((1 : Int), Atom.X i j k), const := 0 }
     { terms := [], const := 1 }

/-- Rule regla_max_dias_consecutivos of the Beta model. -/
def regla_max_dias_consecutivos (e : Entrada) (i : Nat) : Constr :=
  .le { terms := (mJ e).flatMap fun j => (List.range' 1 e.D).map fun k =>
          ((1 : Int), Atom.X i j k)
        const := 0 }
     { terms := [], const := e.max_dias_consecutivos }

/-- Rule regla_disponibilidad of the Beta model. -/
def regla_disponibilidad (e : Entrada) (i j k : Nat) : Except String Constr :=
  match availLookup e i k with
  | none => .error "IndexError: A"
  | some a =>
    .ok (.le { terms := [((1 : Int), Atom.X i j k)], const := 0 }
            { terms := [], const := a })

/-- Rule regla_max_workload: the total workload of person i, summed over
all ships j and all days k, is at most Z. -/
def regla_max_workload (e : Entrada) (i : Nat) : Constr :=
  .le { terms := (mJ e).flatMap fun j => (mK e).map fun k =>
          ((1 : Int), Atom.X i j k)
        const := 0 }
     { terms := [((1 : Int), Atom.Z)], const := 0 }

/-- The built Beta model: index sets, objective Z, and the six declared
constraint families in generation order. -/
structure Modelo : Type where
  I : List Nat
  J : List Nat
  K : List Nat
  roles : List String
  OBJ : LinExpr
  requisito_rol : List ((Nat × String × Nat) × Constr)
  dias_descanso : List ((Nat × Nat) × Constr)
  asignacion_mismo_dia : List ((Nat × Nat) × Constr)
  max_dias_consecutivos : List (Nat × Constr)
  disponibilidad : List ((Nat × Nat × Nat) × Constr)
  max_workload : List (Nat × Constr)
deriving DecidableEq, Repr, Inhabited

/-- The index product J x roles x K of the requisito_rol family. -/
def idxJRK (e : Entrada) (roles : List String) : List (Nat × String × Nat) :=
  (mJ e).flatMap fun j => roles.flatMap fun r => (mK e).map fun k => (j, r, k)

/-- The index product I x J x K of the disponibilidad family. -/
def idxIJK (e : Entrada) : List (Nat × Nat × Nat) :=
  (mI e).flatMap fun i => (mJ e).flatMap fun j => (mK e).map fun k => (i, j, k)

/-- Assembles the Beta model record from the parts whose construction
cannot raise, given the parts whose construction can. -/
def construir (e : Entrada) (roles : List String)
    (req : List ((Nat × String × Nat) × Constr))
    (disp : List ((Nat × Nat × Nat) × Constr)) : Modelo :=
  { I := mI e
    J := mJ e
    K := mK e
    roles := roles
    OBJ := regla_objetivo
    requisito_rol := req
    dias_descanso := (mI e).flatMap fun i => (mK e).filterMap fun k =>
      (regla_dias_descanso e i k).map (fun c => ((i, k), c))
    asignacion_mismo_dia := (mI e).flatMap fun i => (mK e).map fun k =>
      ((i, k), regla_asignacion_mismo_dia e i k)
    max_dias_consecutivos := (mI e).map fun i =>
      (i, regla_max_dias_consecutivos e i)
    disponibilidad := disp
    max_workload := (mI e).map fun i => (i, regla_max_workload e i) }

/-- The method crear_modelo of class ModeloPlanificacionBarcosBeta. -/
def crear_modelo (e : Entrada) : Except String Modelo := do
  let d0 ← match e.R.head? with
    | some d => Except.ok d
    | none => Except.error "IndexError: R[0]"
  let roles := d0.map (·.1)
  let req ← mapME (fun x => (regla_requisito_rol e x.1 x.2.1 x.2.2).map
    (fun c => (x, c))) (idxJRK e roles)
  let disp ← mapME (fun x => (regla_disponibilidad e x.1 x.2.1 x.2.2).map
    (fun c => (x, c))) (idxIJK e)
  pure (construir e roles req disp)

/-- Feasibility of a rational assignment for the Beta model: X and Y take
binary values over the index space (Z is a free variable) and every
generated constraint of the six families holds. -/
def Feasible2B (m : Modelo) (v : Atom → ℚ) : Bool :=
  (m.I.all fun i => m.J.all fun j => m.K.all fun k =>
      ModeloPlanificacionBarcos.binQ (v (.X i j k))
      && ModeloPlanificacionBarcos.binQ (v (.Y i j k)))
  && (m.requisito_rol.all fun p => p.2.holds v)
  && (m.dias_descanso.all fun p => p.2.holds v)
  && (m.asignacion_mismo_dia.all fun p => p.2.holds v)
  && (m.max_dias_consecutivos.all fun p => p.2.holds v)
  && (m.disponibilidad.all fun p => p.2.holds v)
  && (m.max_workload.all fun p => p.2.holds v)

/-- Integer-assignment counterpart of Feasible2B, used to check concrete
integral solution points by computation. -/
def Feasible2Z (m : Modelo) (v : Atom → ℤ) : Bool :=
  (m.I.all fun i => m.J.all fun j => m.K.all fun k =>
      ModeloPlanificacionBarcos.binZ (v (.X i j k))
      && ModeloPlanificacionBarcos.binZ (v (.Y i j k)))
  && (m.requisito_rol.all fun p => p.2.holdsZ v)
  && (m.dias_descanso.all fun p => p.2.holdsZ v)
  && (m.asignacion_mismo_dia.all fun p => p.2.holdsZ v)
  && (m.max_dias_consecutivos.all fun p => p.2.holdsZ v)
  && (m.disponibilidad.all fun p => p.2.holdsZ v)
  && (m.max_workload.all fun p => p.2.holdsZ v)

end ModeloPlanificacionBarcosBeta

/-!  Concrete instances used by the counterexamples and witnesses below. -/

/-- Scenario A of the spec: 1 ship, 3 days, one role requiring 1 person,
2 candidates of that role available every day, T=3, P=1,
maxConsecutiveDays=3. -/
def eA : Entrada :=
  { N := 1, D := 3, T := 3, P := 1
    A := [[1, 1, 1], [1, 1, 1]]
    R := [[("capitan", 1)]]
    personas := [(1, "capitan"), (2, "capitan")]
    max_dias_consecutivos := 3 }

/-- The model built from Scenario A. -/
def mA : ModeloPlanificacionBarcos.Modelo :=
  (ModeloPlanificacionBarcos.crear_modelo eA).toOption.getD default

/-- Scenario A solution point: person 1 covers all three days. -/
def vA1z : Atom → ℤ := fun a => match a with
  | .X 1 1 1 => 1
  | .X 1 1 2 => 1
  | .X 1 1 3 => 1
  | _ => 0

/-- Scenario A solution point: person 1 covers days 1 and 2, person 2
covers day 3. -/
def vSplitz : Atom → ℤ := fun a => match a with
  | .X 1 1 1 => 1
  | .X 1 1 2 => 1
  | .X 2 1 3 => 1
  | _ => 0

/-- An input with a non-positive parameter (max_dias_consecutivos = 0) and
with T + P = 4 > 2 = D: every validation listed in the spec should reject
or flag it. -/
def eInvalida : Entrada :=
  { N := 1, D := 2, T := 3, P := 1
    A := [[1, 1]]
    R := [[("capitan", 1)]]
    personas := [(1, "capitan")]
    max_dias_consecutivos := 0 }

/-- A two-ship instance on which the stint-linkage rule is generated for
k = 1: one person, 4 days, T = 3, P = 1, no coverage pressure. -/
def eDos : Entrada :=
  { N := 2, D := 4, T := 3, P := 1
    A := [[1, 1, 1, 1]]
    R := [[("capitan", 0)], [("capitan", 0)]]
    personas := [(1, "capitan")]
    max_dias_consecutivos := 4 }

/-- The model built from eDos. -/
def mDos : ModeloPlanificacionBarcos.Modelo :=
  (ModeloPlanificacionBarcos.crear_modelo eDos).toOption.getD default

/-- A point of eDos with Y(1,1,1) = 1, X(1,1,1) = 1 and X(1,2,2) = 1:
person 1 works ship 2 (another ship) on day 2, inside the lookahead
window of the stint marked at (1,1,1). -/
def vDosz : Atom → ℤ := fun a => match a with
  | .X 1 1 1 => 1
  | .X 1 2 2 => 1
  | .Y 1 1 1 => 1
  | _ => 0

/-- A point of eDos with Y(1,2,1) = 1 and every other variable 0. -/
def vDosCeroz : Atom → ℤ := fun a => match a with
  | .Y 1 2 1 => 1
  | _ => 0

/-- An instance whose availability matrix is missing the entry for day 2
(the declared horizon is D = 2 but the row of person 1 has 1 column). -/
def eFaltante : Entrada :=
  { N := 1, D := 2, T := 1, P := 1
    A := [[1]]
    R := [[("capitan", 1)]]
    personas := [(1, "capitan")]
    max_dias_consecutivos := 2 }

/-- An instance whose roster mentions role "piloto" and whose ship 2
requires 2 of role "piloto", but whose first ship requirement record only
has the key "cocinero": the role vocabulary R[0].keys() misses "piloto". -/
def eRoles : Entrada :=
  { N := 2, D := 1, T := 1, P := 1
    A := [[1], [1], [1]]
    R := [[("cocinero", 1)], [("cocinero", 1), ("piloto", 2)]]
    personas := [(1, "piloto"), (2, "cocinero"), (3, "cocinero")]
    max_dias_consecutivos := 1 }

/-- The model built from eRoles. -/
def mRoles : ModeloPlanificacionBarcos.Modelo :=
  (ModeloPlanificacionBarcos.crear_modelo eRoles).toOption.getD default

/-- A one-person instance long enough for the rest-period rule to be
generated at k = 1: D = 5, T = 3, P = 1. -/
def eResto : Entrada :=
  { N := 1, D := 5, T := 3, P := 1
    A := [[1, 1, 1, 1, 1]]
    R := [[("capitan", 0)]]
    personas := [(1, "capitan")]
    max_dias_consecutivos := 5 }

/-- The model built from eResto. -/
def mResto : ModeloPlanificacionBarcos.Modelo :=
  (ModeloPlanificacionBarcos.crear_modelo eResto).toOption.getD default

/-- A point of eResto with Y(1,1,1) = 1 and every X equal to 0. -/
def vRestoz : Atom → ℤ := fun a => match a with
  | .Y 1 1 1 => 1
  | _ => 0

/-- A small instance for the Beta (minimize maximum workload) model. -/
def eBeta : Entrada :=
  { N := 1, D := 1, T := 1, P := 1
    A := [[1]]
    R := [[("capitan", 1)]]
    personas := [(1, "capitan")]
    max_dias_consecutivos := 1 }

/-- The Beta model built from eBeta. -/
def mBeta : ModeloPlanificacionBarcosBeta.Modelo :=
  (ModeloPlanificacionBarcosBeta.crear_modelo eBeta).toOption.getD default

/-- A feasible point of the Beta model mBeta: person 1 works day 1 and
Z = 1. -/
def vBetaz : Atom → ℤ := fun a => match a with
  | .X 1 1 1 => 1
  | .Z => 1
  | _ => 0

/-- True when construction succeeded (no Python exception was raised). -/
def esOk (x : Except String α) : Bool :=
  match x with
  | .ok _ => true
  | .error _ => false

/-- The number of persons of an instance that cover every day of ship 1
under an assignment (used to state that exactly one person covers all
days in Scenario A). -/
def cuentaCubridores (e : Entrada) (v : Atom → ℚ) : Nat :=
  ((mI e).filter (fun i => (mK e).all fun k => decide (v (.X i 1 k) = 1))).length

/-- The Beta model built from the Scenario A input. -/
def mABeta : ModeloPlanificacionBarcosBeta.Modelo :=
  (ModeloPlanificacionBarcosBeta.crear_modelo eA).toOption.getD default

/-- An optimal solution of the Scenario A instance: a feasible rational
point whose objective value is minimal among all feasible rational
points. -/
def SolucionOptimaA (v : Atom → ℚ) : Prop :=
  ModeloPlanificacionBarcos.FeasibleB mA v = true
  ∧ ∀ w : Atom → ℚ, ModeloPlanificacionBarcos.FeasibleB mA w = true →
      mA.OBJ.evalQ v ≤ mA.OBJ.evalQ w

/-!  Bridge lemmas: an integer assignment, viewed through castQ as a
rational point, satisfies exactly the constraints its integer evaluation
satisfies. -/

theorem evalQ_castQ (e : LinExpr) (v : Atom → ℤ) :
    e.evalQ (castQ v) = ((e.evalZ v : ℤ) : ℚ) := by
  have h : ∀ l : List (Int × Atom),
      (l.map (fun t => (t.1 : ℚ) * castQ v t.2)).sum
        = (((l.map (fun t => t.1 * v t.2)).sum : ℤ) : ℚ) := by
    intro l
    induction l with
    | nil => simp
    | cons t ts ih =>
      simp only [List.map_cons, List.sum_cons, castQ] at ih ⊢
      rw [ih, Int.cast_add, Int.cast_mul]
  unfold LinExpr.evalQ LinExpr.evalZ
  rw [h]
  push_cast
  ring

theorem holds_castQ (c : Constr) (v : Atom → ℤ) :
    c.holds (castQ v) = c.holdsZ v := by
  cases c with
  | le lhs rhs =>
    exact decide_eq_decide.mpr
      (by rw [evalQ_castQ, evalQ_castQ]; exact Int.cast_le)
  | ge lhs rhs =>
    exact decide_eq_decide.mpr
      (by rw [evalQ_castQ, evalQ_castQ]; exact Int.cast_le)

theorem binQ_castQ (n : ℤ) :
    ModeloPlanificacionBarcos.binQ ((n : ℤ) : ℚ)
      = ModeloPlanificacionBarcos.binZ n := by
  exact decide_eq_decide.mpr
    (or_congr Int.cast_eq_zero (by exact_mod_cast Iff.rfl))

theorem all_holds_castQ {γ : Type} (l : List (γ × Constr)) (v : Atom → ℤ) :
    (l.all fun p => p.2.holds (castQ v)) = (l.all fun p => p.2.holdsZ v) := by
  induction l with
  | nil => rfl
  | cons p ps ih => simp only [List.all_cons, holds_castQ, ih]

namespace ModeloPlanificacionBarcos

theorem FeasibleSinCambio_castQ (m : Modelo) (v : Atom → ℤ) :
    FeasibleSinCambioB m (castQ v) = FeasibleSinCambioZ m v := by
  unfold FeasibleSinCambioB FeasibleSinCambioZ
  simp only [all_holds_castQ, castQ, binQ_castQ]

theorem Feasible_castQ (m : Modelo) (v : Atom → ℤ) :
    FeasibleB m (castQ v) = FeasibleZ m v := by
  unfold FeasibleB FeasibleZ
  simp only [all_holds_castQ, FeasibleSinCambio_castQ]

end ModeloPlanificacionBarcos

namespace ModeloPlanificacionBarcosBeta

theorem Feasible2_castQ (m : Modelo) (v : Atom → ℤ) :
    Feasible2B m (castQ v) = Feasible2Z m v := by
  unfold Feasible2B Feasible2Z
  simp only [all_holds_castQ, castQ, binQ_castQ]

end ModeloPlanificacionBarcosBeta

/-!  Helper lemmas about the generation combinators. -/

theorem mapME_ok_forall {α β : Type} {f : α → Except String β} :
    ∀ {l : List α} {out : List β}, mapME f l = .ok out →
      ∀ a ∈ l, ∃ b, f a = .ok b ∧ b ∈ out := by
  intro l
  induction l with
  | nil =>
    intro out h a ha
    cases ha
  | cons x xs ih =>
    intro out h a ha
    unfold mapME at h
    cases hfx : f x with
    | error s => rw [hfx] at h; cases h
    | ok b =>
      rw [hfx] at h
      cases hrec : mapME f xs with
      | error s => rw [hrec] at h; cases h
      | ok bs =>
        rw [hrec] at h
        cases h
        rcases List.mem_cons.mp ha with rfl | hmem
        · exact ⟨b, hfx, List.mem_cons_self _ _⟩
        · obtain ⟨b', hb', hmem'⟩ := ih hrec a hmem
          exact ⟨b', hb', List.mem_cons_of_mem _ hmem'⟩

theorem mapME_ok_mem_rev {α β : Type} {f : α → Except String β} :
    ∀ {l : List α} {out : List β}, mapME f l = .ok out →
      ∀ b ∈ out, ∃ a ∈ l, f a = .ok b := by
  intro l
  induction l with
  | nil =>
    intro out h b hb
    unfold mapME at h
    cases h
    cases hb
  | cons x xs ih =>
    intro out h b hb
    unfold mapME at h
    cases hfx : f x with
    | error s => rw [hfx] at h; cases h
    | ok b' =>
      rw [hfx] at h
      cases hrec : mapME f xs with
      | error s => rw [hrec] at h; cases h
      | ok bs =>
        rw [hrec] at h
        cases h
        rcases List.mem_cons.mp hb with rfl | hmem
        · exact ⟨x, List.mem_cons_self _ _, hfx⟩
        · obtain ⟨a, ha, hfa⟩ := ih hrec b hmem
          exact ⟨a, List.mem_cons_of_mem _ ha, hfa⟩

theorem mem_fam3 {rule : Nat → Nat → Nat → Option Constr}
    {I J K : List Nat} {i j k : Nat} {c : Constr} :
    ((i, j, k), c) ∈ fam3 rule I J K
      ↔ i ∈ I ∧ j ∈ J ∧ k ∈ K ∧ rule i j k = some c := by
  simp only [fam3, List.mem_flatMap, List.mem_filterMap, Option.map_eq_some',
    Prod.mk.injEq]
  constructor
  · rintro ⟨i', hi', j', hj', k', hk', c', hc', ⟨rfl, rfl, rfl⟩, rfl⟩
    exact ⟨hi', hj', hk', hc'⟩
  · rintro ⟨hi, hj, hk, hc⟩
    exact ⟨i, hi, j, hj, k, hk, c, hc, ⟨rfl, rfl, rfl⟩, rfl⟩

theorem list_sum_nonpos_eq_zero {l : List ℚ} (h0 : ∀ x ∈ l, 0 ≤ x)
    (hs : l.sum ≤ 0) : ∀ x ∈ l, x = 0 := by
  induction l with
  | nil => intro x hx; cases hx
  | cons a as ih =>
    have ha : 0 ≤ a := h0 a (List.mem_cons_self _ _)
    have has : 0 ≤ as.sum :=
      List.sum_nonneg (fun x hx => h0 x (List.mem_cons_of_mem _ hx))
    rw [List.sum_cons] at hs
    intro x hx
    rcases List.mem_cons.mp hx with rfl | hx'
    · linarith
    · exact ih (fun y hy => h0 y (List.mem_cons_of_mem _ hy)) (by linarith) x hx'

theorem list_sum_le_length {l : List ℚ} (h1 : ∀ x ∈ l, x ≤ 1) :
    l.sum ≤ (l.length : ℚ) := by
  induction l with
  | nil => simp
  | cons a as ih =>
    have ha : a ≤ 1 := h1 a (List.mem_cons_self _ _)
    have has := ih (fun x hx => h1 x (List.mem_cons_of_mem _ hx))
    rw [List.sum_cons, List.length_cons]
    push_cast
    linarith

namespace ModeloPlanificacionBarcos

theorem crear_modelo_ok {e : Entrada} {m : Modelo}
    (hm : crear_modelo e = .ok m) :
    ∃ d0 req disp, e.R.head? = some d0
      ∧ mapME (fun x => (regla_requisito_rol e x.1 x.2.1 x.2.2).map
          (fun c => (x, c))) (idxJRK e (d0.map (·.1))) = .ok req
      ∧ mapME (fun x => (regla_disponibilidad e x.1 x.2.1 x.2.2).map
          (fun c => (x, c))) (idxIJK e) = .ok disp
      ∧ m = construir e (d0.map (·.1)) req disp := by
  unfold crear_modelo at hm
  cases hR : e.R.head? with
  | none => rw [hR] at hm; cases hm
  | some d0 =>
    rw [hR] at hm
    simp only [bind, Except.bind] at hm
    cases hreq : mapME (fun x => (regla_requisito_rol e x.1 x.2.1 x.2.2).map
        (fun c => (x, c))) (idxJRK e (d0.map (·.1))) with
    | error s => rw [hreq] at hm; cases hm
    | ok req =>
      rw [hreq] at hm
      cases hdisp : mapME (fun x => (regla_disponibilidad e x.1 x.2.1 x.2.2).map
          (fun c => (x, c))) (idxIJK e) with
      | error s => rw [hdisp] at hm; cases hm
      | ok disp =>
        rw [hdisp] at hm
        simp only [pure, Except.pure] at hm
        cases hm
        exact ⟨d0, req, disp, rfl, hreq, rfl, rfl⟩

end ModeloPlanificacionBarcos

namespace ModeloPlanificacionBarcosBeta

theorem crear_modelo_beta_ok {e : Entrada} {m : Modelo}
    (hm : crear_modelo e = .ok m) :
    ∃ d0 req disp, e.R.head? = some d0
      ∧ mapME (fun x => (regla_requisito_rol e x.1 x.2.1 x.2.2).map
          (fun c => (x, c))) (idxJRK e (d0.map (·.1))) = .ok req
      ∧ mapME (fun x => (regla_disponibilidad e x.1 x.2.1 x.2.2).map
          (fun c => (x, c))) (idxIJK e) = .ok disp
      ∧ m = construir e (d0.map (·.1)) req disp := by
  unfold crear_modelo at hm
  cases hR : e.R.head? with
  | none => rw [hR] at hm; cases hm
  | some d0 =>
    rw [hR] at hm
    simp only [bind, Except.bind] at hm
    cases hreq : mapME (fun x => (regla_requisito_rol e x.1 x.2.1 x.2.2).map
        (fun c => (x, c))) (idxJRK e (d0.map (·.1))) with
    | error s => rw [hreq] at hm; cases hm
    | ok req =>
      rw [hreq] at hm
      cases hdisp : mapME (fun x => (regla_disponibilidad e x.1 x.2.1 x.2.2).map
          (fun c => (x, c))) (idxIJK e) with
      | error s => rw [hdisp] at hm; cases hm
      | ok disp =>
        rw [hdisp] at hm
        simp only [pure, Except.pure] at hm
        cases hm
        exact ⟨d0, req, disp, rfl, hreq, rfl, rfl⟩

end ModeloPlanificacionBarcosBeta

/-- C9: instance building is deterministic: for a fixed input, building
the instance twice (with either model class) yields structurally identical
constraint sets: the two built models are equal as data, so every family
has the same constraint count and the same coefficients in each
constraint. -/
theorem C9_determinismo (e : Entrada)
    (m1 m2 : ModeloPlanificacionBarcos.Modelo)
    (n1 n2 : ModeloPlanificacionBarcosBeta.Modelo)
    (h1 : ModeloPlanificacionBarcos.crear_modelo e = .ok m1)
    (h2 : ModeloPlanificacionBarcos.crear_modelo e = .ok m2)
    (h3 : ModeloPlanificacionBarcosBeta.crear_modelo e = .ok n1)
    (h4 : ModeloPlanificacionBarcosBeta.crear_modelo e = .ok n2) :
    m1 = m2 ∧ n1 = n2 := by
  rw [h1] at h2
  rw [h3] at h4
  cases h2
  cases h4
  exact ⟨rfl, rfl⟩

/-- Witness for C9 at the Scenario A input. -/
theorem C9_determinismo_testigo : mA = mA ∧ mABeta = mABeta :=
  C9_determinismo eA mA mA mABeta mABeta (by rfl) (by rfl) (by rfl) (by rfl)

/-- C1 counterexample: on the concrete input eInvalida, whose
max_dias_consecutivos is 0 (not a positive integer) and whose parameters
satisfy T + P = 4 > 2 = D, construction succeeds and returns an instance
for both model classes: no ValidationError is raised and no diagnostic is
produced, contradicting the claim that construction returns or raises a
ValidationError for such inputs. -/
theorem C1_contraejemplo :
    eInvalida.max_dias_consecutivos = 0
    ∧ eInvalida.T + eInvalida.P > eInvalida.D
    ∧ esOk (ModeloPlanificacionBarcos.crear_modelo eInvalida) = true
    ∧ esOk (ModeloPlanificacionBarcosBeta.crear_modelo eInvalida) = true := by
  exact ⟨rfl, by decide, by decide, by decide⟩

/-- C1 amended: instance building performs no input validation at all.
The constructors of both classes store their arguments and immediately
build the model: the invalid input eInvalida (non-positive cap and
T + P > D) is accepted without any error or diagnostic by both classes,
while a malformed availability shape (eFaltante, one column for a
declared two-day horizon) surfaces only as a raw indexing exception
raised during constraint generation, not as a pre-solve
ValidationError. -/
theorem C1_sin_validacion :
    esOk (ModeloPlanificacionBarcos.crear_modelo eInvalida) = true
    ∧ esOk (ModeloPlanificacionBarcosBeta.crear_modelo eInvalida) = true
    ∧ esOk (ModeloPlanificacionBarcos.crear_modelo eFaltante) = false
    ∧ esOk (ModeloPlanificacionBarcosBeta.crear_modelo eFaltante) = false := by
  exact ⟨by decide, by decide, by decide, by decide⟩

theorem mem_idxIJK {e : Entrada} {i j k : Nat}
    (hi : i ∈ mI e) (hj : j ∈ mJ e) (hk : k ∈ mK e) :
    (i, j, k) ∈ ModeloPlanificacionBarcos.idxIJK e := by
  simp only [ModeloPlanificacionBarcos.idxIJK, List.mem_flatMap, List.mem_map]
  exact ⟨i, hi, j, hj, k, hk, rfl⟩

theorem mem_idxJRK {e : Entrada} {roles : List String} {j k : Nat} {r : String}
    (hj : j ∈ mJ e) (hr : r ∈ roles) (hk : k ∈ mK e) :
    (j, r, k) ∈ ModeloPlanificacionBarcos.idxJRK e roles := by
  simp only [ModeloPlanificacionBarcos.idxJRK, List.mem_flatMap, List.mem_map]
  exact ⟨j, hj, r, hr, k, hk, rfl⟩

/-- C5 amended: for every (person, ship, day) in the declared index space of
a successfully built instance, the availability entry A[i-1][k-1] is
present, the constraint X(i,j,k) less-or-equal that entry is generated in
the disponibilidad family, and every rational point satisfying it with the
entry equal to 0 (and a nonnegative X value) has X(i,j,k) = 0.  A missing
availability entry is NOT treated as 0: it makes construction fail with an
IndexError (see the counterexample). -/
theorem C5_disponibilidad (e : Entrada) (m : ModeloPlanificacionBarcos.Modelo)
    (hm : ModeloPlanificacionBarcos.crear_modelo e = .ok m)
    (i j k : Nat) (hi : i ∈ mI e) (hj : j ∈ mJ e) (hk : k ∈ mK e) :
    ∃ a, availLookup e i k = some a
      ∧ ((i, j, k),
          Constr.le { terms := [((1 : Int), Atom.X i j k)], const := 0 }
            { terms := [], const := a }) ∈ m.disponibilidad
      ∧ ∀ v : Atom → ℚ,
          Constr.holds v (Constr.le { terms := [((1 : Int), Atom.X i j k)], const := 0 }
            { terms := [], const := a }) = true →
          v (Atom.X i j k) ≤ (a : ℚ)
          ∧ (a = 0 → 0 ≤ v (Atom.X i j k) → v (Atom.X i j k) = 0) := by
  obtain ⟨d0, req, disp, hd0, hreq, hdisp, hcon⟩ :=
    ModeloPlanificacionBarcos.crear_modelo_ok hm
  obtain ⟨b, hb, hbmem⟩ := mapME_ok_forall hdisp (i, j, k) (mem_idxIJK hi hj hk)
  unfold ModeloPlanificacionBarcos.regla_disponibilidad at hb
  cases ha : availLookup e i k with
  | none =>
    rw [ha] at hb
    cases hb
  | some a =>
    rw [ha] at hb
    simp only [Except.map] at hb
    cases hb
    refine ⟨a, rfl, ?_, ?_⟩
    · rw [hcon]
      exact hbmem
    · intro v hv
      simp only [Constr.holds, LinExpr.evalQ, List.map_cons, List.map_nil,
        List.sum_cons, List.sum_nil, decide_eq_true_eq] at hv
      constructor
      · push_cast at hv ⊢
        linarith
      · intro ha0 hnn
        subst ha0
        push_cast at hv
        linarith

/-- Witness for C5 at the Scenario A instance, person 1, ship 1, day 1. -/
theorem C5_disponibilidad_testigo :
    ∃ a, availLookup eA 1 1 = some a
      ∧ ((1, 1, 1),
          Constr.le { terms := [((1 : Int), Atom.X 1 1 1)], const := 0 }
            { terms := [], const := a }) ∈ mA.disponibilidad
      ∧ ∀ v : Atom → ℚ,
          Constr.holds v (Constr.le { terms := [((1 : Int), Atom.X 1 1 1)], const := 0 }
            { terms := [], const := a }) = true →
          v (Atom.X 1 1 1) ≤ (a : ℚ)
          ∧ (a = 0 → 0 ≤ v (Atom.X 1 1 1) → v (Atom.X 1 1 1) = 0) :=
  C5_disponibilidad eA mA (by rfl) 1 1 1 (by decide) (by decide) (by decide)

/-- C5 counterexample: the instance eFaltante declares a two-day horizon
but its availability matrix row for person 1 has a single column, so the
entry A[0][1] is missing; instead of treating the missing entry as
unavailable (0), constraint generation fails with an IndexError and no
instance is produced, contradicting the claim that a missing entry never
causes generation to fail. -/
theorem C5_contraejemplo :
    availLookup eFaltante 1 2 = none
    ∧ 1 ∈ mI eFaltante ∧ 1 ∈ mJ eFaltante ∧ 2 ∈ mK eFaltante
    ∧ esOk (ModeloPlanificacionBarcos.crear_modelo eFaltante) = false := by
  exact ⟨by decide, by decide, by decide, by decide, by decide⟩

/-- C6 amended: role coverage is enforced over the role vocabulary
R[0].keys() (the keys of the FIRST ship's requirement record), not over the
roles referenced by the roster.  For every ship j, every role r of that
vocabulary and every day k of a successfully built instance, the
requirement entry R[j-1][r] exists, the coverage constraint (count of
persons of role r on ship j and day k at least that entry) is generated in
the requisito_rol family, and every rational point satisfying it has the
role-count sum at least the requirement.  A roster role absent from
R[0].keys() receives no coverage constraint at all (see the
counterexample). -/
theorem C6_requisito_rol (e : Entrada) (m : ModeloPlanificacionBarcos.Modelo)
    (d0 : List (String × Int))
    (hm : ModeloPlanificacionBarcos.crear_modelo e = .ok m)
    (hd0 : e.R.head? = some d0)
    (j : Nat) (r : String) (k : Nat)
    (hj : j ∈ mJ e) (hr : r ∈ d0.map (·.1)) (hk : k ∈ mK e) :
    m.roles = d0.map (·.1)
    ∧ ∃ req, (pyGet e.R ((j : Int) - 1)).bind (fun dj => lookupStr dj r) = some req
      ∧ ((j, r, k), Constr.ge
            { terms := ((mI e).filter (fun i => rolDe e i == some r)).map
                (fun i => ((1 : Int), Atom.X i j k)), const := 0 }
            { terms := [], const := req }) ∈ m.requisito_rol
      ∧ ∀ v : Atom → ℚ, Constr.holds v (Constr.ge
            { terms := ((mI e).filter (fun i => rolDe e i == some r)).map
                (fun i => ((1 : Int), Atom.X i j k)), const := 0 }
            { terms := [], const := req }) = true →
          (req : ℚ) ≤ (((mI e).filter (fun i => rolDe e i == some r)).map
              (fun i => v (Atom.X i j k))).sum := by
  obtain ⟨d0', req', disp, hd0', hreq, hdisp, hcon⟩ :=
    ModeloPlanificacionBarcos.crear_modelo_ok hm
  rw [hd0] at hd0'
  cases hd0'
  obtain ⟨b, hb0, hbmem⟩ := mapME_ok_forall hreq (j, r, k) (mem_idxJRK hj hr hk)
  have hb : Except.map (fun c => ((j, r, k), c))
      (ModeloPlanificacionBarcos.regla_requisito_rol e j r k) = Except.ok b := hb0
  unfold ModeloPlanificacionBarcos.regla_requisito_rol at hb
  constructor
  · rw [hcon]
    rfl
  cases hR : pyGet e.R ((j : Int) - 1) with
  | none =>
    rw [hR] at hb
    cases hb
  | some dj =>
    rw [hR] at hb
    dsimp only at hb
    cases hreqv : lookupStr dj r with
    | none =>
      rw [hreqv] at hb
      cases hb
    | some req =>
      rw [hreqv] at hb
      simp only [Except.map] at hb
      cases hb
      refine ⟨req, by simp [Option.bind, hreqv], ?_, ?_⟩
      · rw [hcon]
        exact hbmem
      · intro v hv
        simp only [Constr.holds, LinExpr.evalQ, List.map_nil, List.sum_nil,
          List.map_map, decide_eq_true_eq] at hv
        have hmapeq :
            (((mI e).filter (fun i => rolDe e i == some r)).map
                ((fun t : Int × Atom => (t.1 : ℚ) * v t.2)
                  ∘ fun i => ((1 : Int), Atom.X i j k)))
              = ((mI e).filter (fun i => rolDe e i == some r)).map
                  (fun i => v (Atom.X i j k)) := by
          apply List.map_congr_left
          intro i _
          simp
        rw [hmapeq] at hv
        push_cast at hv ⊢
        linarith

/-- Witness for C6 at the eRoles instance, ship 1, role "cocinero",
day 1. -/
theorem C6_requisito_rol_testigo :
    mRoles.roles = ([("cocinero", (1 : Int))].map (·.1))
    ∧ ∃ req, (pyGet eRoles.R ((1 : Int) - 1)).bind
          (fun dj => lookupStr dj "cocinero") = some req
      ∧ ((1, "cocinero", 1), Constr.ge
            { terms := ((mI eRoles).filter
                (fun i => rolDe eRoles i == some "cocinero")).map
                (fun i => ((1 : Int), Atom.X i 1 1)), const := 0 }
            { terms := [], const := req }) ∈ mRoles.requisito_rol
      ∧ ∀ v : Atom → ℚ, Constr.holds v (Constr.ge
            { terms := ((mI eRoles).filter
                (fun i => rolDe eRoles i == some "cocinero")).map
                (fun i => ((1 : Int), Atom.X i 1 1)), const := 0 }
            { terms := [], const := req }) = true →
          (req : ℚ) ≤ (((mI eRoles).filter
              (fun i => rolDe eRoles i == some "cocinero")).map
              (fun i => v (Atom.X i 1 1))).sum :=
  C6_requisito_rol eRoles mRoles [("cocinero", 1)] (by rfl) (by rfl)
    1 "cocinero" 1 (by decide) (by decide) (by decide)

/-- C6 counterexample: in the instance eRoles the roster contains a person
of role "piloto" and ship 2 requires 2 persons of role "piloto", yet the
built model generates no coverage constraint whose role index is "piloto"
(the generated roles are exactly the keys of the first requirement record,
which only has "cocinero"), contradicting the claim that coverage is
enforced over the full role vocabulary referenced by the roster. -/
theorem C6_contraejemplo :
    "piloto" ∈ eRoles.personas.map (·.2)
    ∧ (pyGet eRoles.R ((2 : Int) - 1)).bind
        (fun dj => lookupStr dj "piloto") = some 2
    ∧ ModeloPlanificacionBarcos.crear_modelo eRoles = .ok mRoles
    ∧ (mRoles.requisito_rol.all fun p => decide (p.1.2.1 ≠ "piloto")) = true := by
  exact ⟨by decide, by decide, by rfl, by decide⟩

/-- C4: the max-consecutive-days rule is literally a cap on the TOTAL
number of days worked in the horizon: for every successfully built
instance the family contains, for each person i in roster order, exactly
the constraint (sum of X(i,j,k) over all ships j and all days k)
less-or-equal max_dias_consecutivos, and a rational point satisfies that
constraint if and only if the person's total assigned days is at most the
cap: any non-contiguous pattern within that total is permitted by this
family. -/
theorem C4_max_dias (e : Entrada) (m : ModeloPlanificacionBarcos.Modelo)
    (hm : ModeloPlanificacionBarcos.crear_modelo e = .ok m) :
    m.max_dias_consecutivos
      = (mI e).map (fun i => (i, ModeloPlanificacionBarcos.regla_max_dias_consecutivos e i))
    ∧ (∀ (i : Nat) (v : Atom → ℚ),
        Constr.holds v (ModeloPlanificacionBarcos.regla_max_dias_consecutivos e i) = true
          ↔ ((mJ e).flatMap (fun j => (List.range' 1 e.D).map
              (fun k => v (Atom.X i j k)))).sum ≤ (e.max_dias_consecutivos : ℚ))
    ∧ ∀ v : Atom → ℚ, ModeloPlanificacionBarcos.FeasibleB m v = true →
        ∀ i ∈ mI e,
          ((mJ e).flatMap (fun j => (List.range' 1 e.D).map
              (fun k => v (Atom.X i j k)))).sum ≤ (e.max_dias_consecutivos : ℚ) := by
  obtain ⟨d0, req, disp, hd0, hreq, hdisp, hcon⟩ :=
    ModeloPlanificacionBarcos.crear_modelo_ok hm
  have hestr : m.max_dias_consecutivos
      = (mI e).map (fun i => (i, ModeloPlanificacionBarcos.regla_max_dias_consecutivos e i)) := by
    rw [hcon]
    rfl
  have hiff : ∀ (i : Nat) (v : Atom → ℚ),
      Constr.holds v (ModeloPlanificacionBarcos.regla_max_dias_consecutivos e i) = true
        ↔ ((mJ e).flatMap (fun j => (List.range' 1 e.D).map
            (fun k => v (Atom.X i j k)))).sum ≤ (e.max_dias_consecutivos : ℚ) := by
    intro i v
    unfold ModeloPlanificacionBarcos.regla_max_dias_consecutivos
    simp only [Constr.holds, LinExpr.evalQ, List.map_flatMap, List.map_map,
      List.map_nil, List.sum_nil, Function.comp_def, Int.cast_one, one_mul,
      add_zero, zero_add, decide_eq_true_eq, Int.cast_zero]
  refine ⟨hestr, hiff, fun v hv i hi => ?_⟩
  have hall : (m.max_dias_consecutivos.all fun p => p.2.holds v) = true := by
    unfold ModeloPlanificacionBarcos.FeasibleB
      ModeloPlanificacionBarcos.FeasibleSinCambioB at hv
    simp only [Bool.and_eq_true] at hv
    exact hv.1.1.2
  have hmem : (i, ModeloPlanificacionBarcos.regla_max_dias_consecutivos e i)
      ∈ m.max_dias_consecutivos := by
    rw [hestr]
    exact List.mem_map_of_mem _ hi
  exact (hiff i v).mp ((List.all_eq_true.mp hall) _ hmem)

/-- Witness for C4 at the Scenario A instance, person 1, at the
integral point in which person 1 covers all three days. -/
theorem C4_max_dias_testigo :
    ((mJ eA).flatMap (fun j => (List.range' 1 eA.D).map
        (fun k => castQ vA1z (Atom.X 1 j k)))).sum
      ≤ (eA.max_dias_consecutivos : ℚ) :=
  (C4_max_dias eA mA (by rfl)).2.2 (castQ vA1z)
    (by rw [ModeloPlanificacionBarcos.Feasible_castQ]; decide) 1 (by decide)

/-- C10: the dias_consecutivos and cambio_buque rules of the
minimize-total model are the same function (identical inequality,
identical skip condition at every index), the two generated families of
every successfully built instance are identical lists, and dropping the
cambio_buque family leaves feasibility unchanged at every rational
point. -/
theorem C10_familias_duplicadas :
    (∀ (e : Entrada) (i j k : Nat),
        ModeloPlanificacionBarcos.regla_dias_consecutivos e i j k
          = ModeloPlanificacionBarcos.regla_cambio_buque e i j k)
    ∧ ∀ (e : Entrada) (m : ModeloPlanificacionBarcos.Modelo),
        ModeloPlanificacionBarcos.crear_modelo e = .ok m →
          m.dias_consecutivos = m.cambio_buque
          ∧ ∀ v : Atom → ℚ,
              ModeloPlanificacionBarcos.FeasibleB m v
                = ModeloPlanificacionBarcos.FeasibleSinCambioB m v := by
  refine ⟨fun e i j k => rfl, fun e m hm => ?_⟩
  obtain ⟨d0, req, disp, hd0, hreq, hdisp, hcon⟩ :=
    ModeloPlanificacionBarcos.crear_modelo_ok hm
  have hfam : m.dias_consecutivos = m.cambio_buque := by
    rw [hcon]
    rfl
  refine ⟨hfam, fun v => ?_⟩
  unfold ModeloPlanificacionBarcos.FeasibleB
  cases hf : ModeloPlanificacionBarcos.FeasibleSinCambioB m v with
  | false => simp
  | true =>
    simp only [Bool.true_and]
    have hf' := hf
    unfold ModeloPlanificacionBarcos.FeasibleSinCambioB at hf'
    simp only [Bool.and_eq_true] at hf'
    rw [← hfam]
    exact hf'.1.1.1.1.2

/-- Witness for C10 at the two-ship instance eDos and the point vDosz. -/
theorem C10_familias_duplicadas_testigo :
    ModeloPlanificacionBarcos.FeasibleB mDos (castQ vDosz)
      = ModeloPlanificacionBarcos.FeasibleSinCambioB mDos (castQ vDosz) :=
  ((C10_familias_duplicadas.2 eDos mDos (by rfl)).2 (castQ vDosz))

/-- C7: the Beta model's objective is the single variable Z, its
max_workload family contains, for each person i in roster order, exactly
the constraint (sum of X(i,j,k) over all ships j and days k)
less-or-equal Z, and in every feasible rational point of the instance no
per-person workload exceeds the objective value (which equals the value
of Z). -/
theorem C7_min_max_workload (e : Entrada)
    (m : ModeloPlanificacionBarcosBeta.Modelo)
    (hm : ModeloPlanificacionBarcosBeta.crear_modelo e = .ok m) :
    m.OBJ = { terms := [((1 : Int), Atom.Z)], const := 0 }
    ∧ (∀ v : Atom → ℚ, m.OBJ.evalQ v = v Atom.Z)
    ∧ m.max_workload
        = (mI e).map (fun i => (i, ModeloPlanificacionBarcosBeta.regla_max_workload e i))
    ∧ ∀ v : Atom → ℚ, ModeloPlanificacionBarcosBeta.Feasible2B m v = true →
        ∀ i ∈ mI e,
          ((mJ e).flatMap (fun j => (mK e).map (fun k => v (Atom.X i j k)))).sum
            ≤ m.OBJ.evalQ v := by
  obtain ⟨d0, req, disp, hd0, hreq, hdisp, hcon⟩ :=
    ModeloPlanificacionBarcosBeta.crear_modelo_beta_ok hm
  have hobj : m.OBJ = { terms := [((1 : Int), Atom.Z)], const := 0 } := by
    rw [hcon]
    rfl
  have hevalobj : ∀ v : Atom → ℚ, m.OBJ.evalQ v = v Atom.Z := by
    intro v
    rw [hobj]
    simp [LinExpr.evalQ]
  refine ⟨hobj, hevalobj, ?_, ?_⟩
  · rw [hcon]
    rfl
  · intro v hv i hi
    have hwork : (m.max_workload.all fun p => p.2.holds v) = true := by
      unfold ModeloPlanificacionBarcosBeta.Feasible2B at hv
      simp only [Bool.and_eq_true] at hv
      exact hv.2
    have hmem : (i, ModeloPlanificacionBarcosBeta.regla_max_workload e i)
        ∈ m.max_workload := by
      rw [hcon]
      exact List.mem_map_of_mem _ hi
    have hc := (List.all_eq_true.mp hwork) _ hmem
    unfold ModeloPlanificacionBarcosBeta.regla_max_workload at hc
    simp only [Constr.holds, LinExpr.evalQ, List.map_flatMap, List.map_map,
      List.map_cons, List.map_nil, List.sum_cons, List.sum_nil,
      Function.comp_def, Int.cast_one, one_mul, add_zero, zero_add,
      decide_eq_true_eq, Int.cast_zero] at hc
    rw [hevalobj]
    exact hc

/-- Witness for C7 at the instance eBeta, person 1, at the integral
feasible point vBetaz. -/
theorem C7_min_max_workload_testigo :
    ((mJ eBeta).flatMap (fun j => (mK eBeta).map
        (fun k => castQ vBetaz (Atom.X 1 j k)))).sum
      ≤ mBeta.OBJ.evalQ (castQ vBetaz) :=
  (C7_min_max_workload eBeta mBeta (by rfl)).2.2.2 (castQ vBetaz)
    (by rw [ModeloPlanificacionBarcosBeta.Feasible2_castQ]; decide)
    1 (by decide)

/-!  Evaluation shortcuts for the shapes of linear expression the rules
produce. -/

theorem evalQ_mapX (v : Atom → ℚ) (f : Nat → Atom) (l : List Nat) :
    LinExpr.evalQ { terms := l.map (fun t => ((1 : Int), f t)), const := 0 } v
      = (l.map (fun t => v (f t))).sum := by
  unfold LinExpr.evalQ
  simp [List.map_map, Function.comp_def]

theorem evalQ_flatMapX (v : Atom → ℚ) (f : Nat → Nat → Atom)
    (l : List Nat) (g : Nat → List Nat) :
    LinExpr.evalQ { terms := l.flatMap (fun jp => (g jp).map
        (fun t => ((1 : Int), f jp t))), const := 0 } v
      = (l.flatMap (fun jp => (g jp).map (fun t => v (f jp t)))).sum := by
  unfold LinExpr.evalQ
  simp [List.map_flatMap, List.map_map, Function.comp_def]

theorem evalQ_restRhs (v : Atom → ℚ) (P : Nat) (a : Atom) :
    LinExpr.evalQ { terms := [(-(P : Int), a)], const := (P : Int) } v
      = (P : ℚ) - (P : ℚ) * v a := by
  unfold LinExpr.evalQ
  simp only [List.map_cons, List.map_nil, List.sum_cons, List.sum_nil]
  push_cast
  ring

theorem evalQ_consecRhs (v : Atom → ℚ) (T : Nat) (a b : Atom) :
    LinExpr.evalQ
        { terms := [(-(T : Int), a), ((1 : Int), b)]
          const := (T : Int) } v
      = (T : ℚ) - (T : ℚ) * v a + v b := by
  unfold LinExpr.evalQ
  simp only [List.map_cons, List.map_nil, List.sum_cons, List.sum_nil]
  push_cast
  ring

/-- C3: for every (i,j,k) of the index space with k at most D - T - P, the
rest constraint is generated in the dias_descanso family with the window
range(k+T, k+T+P) = days k+T .. k+T+P-1: every rational point with
nonnegative window values that satisfies it and has Y(i,j,k) = 1 has
X(i,j,t) = 0 throughout the window; every point with Y(i,j,k) = 0 and
window values at most 1 satisfies it (the window is unconstrained by this
family); and for k beyond D - T - P no constraint indexed (i,j,k) is
generated. -/
theorem C3_dias_descanso (e : Entrada) (m : ModeloPlanificacionBarcos.Modelo)
    (hm : ModeloPlanificacionBarcos.crear_modelo e = .ok m)
    (i j k : Nat) (hi : i ∈ mI e) (hj : j ∈ mJ e) (hk : k ∈ mK e) :
    (((k : Int) ≤ (e.D : Int) - (e.T : Int) - (e.P : Int)) →
      ∃ c, ModeloPlanificacionBarcos.regla_dias_descanso e i j k = some c
        ∧ ((i, j, k), c) ∈ m.dias_descanso
        ∧ ∀ v : Atom → ℚ, Constr.holds v c = true →
            (∀ t ∈ List.range' (k + e.T) e.P, 0 ≤ v (Atom.X i j t)) →
            v (Atom.Y i j k) = 1 →
            ∀ t ∈ List.range' (k + e.T) e.P, v (Atom.X i j t) = 0)
    ∧ (∀ v : Atom → ℚ, v (Atom.Y i j k) = 0 →
        (∀ t ∈ List.range' (k + e.T) e.P, v (Atom.X i j t) ≤ 1) →
        ∀ c, ModeloPlanificacionBarcos.regla_dias_descanso e i j k = some c →
          Constr.holds v c = true)
    ∧ (¬ ((k : Int) ≤ (e.D : Int) - (e.T : Int) - (e.P : Int)) →
        ∀ c, ((i, j, k), c) ∉ m.dias_descanso) := by
  obtain ⟨d0, req, disp, hd0, hreq, hdisp, hcon⟩ :=
    ModeloPlanificacionBarcos.crear_modelo_ok hm
  have hfam : m.dias_descanso
      = fam3 (ModeloPlanificacionBarcos.regla_dias_descanso e)
          (mI e) (mJ e) (mK e) := by
    rw [hcon]
    rfl
  refine ⟨?_, ?_, ?_⟩
  · intro hguard
    have hrule : ModeloPlanificacionBarcos.regla_dias_descanso e i j k
        = some (Constr.le
            { terms := (List.range' (k + e.T) e.P).map fun t =>
                ((1 : Int), Atom.X i j t)
              const := 0 }
            { terms := [(-(e.P : Int), Atom.Y i j k)]
              const := (e.P : Int) }) := by
      unfold ModeloPlanificacionBarcos.regla_dias_descanso
      rw [if_pos hguard]
    refine ⟨_, hrule, ?_, ?_⟩
    · rw [hfam]
      exact mem_fam3.mpr ⟨hi, hj, hk, hrule⟩
    · intro v hv h0 hy1
      simp only [Constr.holds, decide_eq_true_eq] at hv
      rw [evalQ_mapX, evalQ_restRhs, hy1] at hv
      have hzero : ∀ x ∈ (List.range' (k + e.T) e.P).map
          (fun t => v (Atom.X i j t)), x = 0 := by
        refine list_sum_nonpos_eq_zero ?_ ?_
        · intro x hx
          obtain ⟨t, ht, rfl⟩ := List.mem_map.mp hx
          exact h0 t ht
        · linarith
      intro t ht
      exact hzero _ (List.mem_map_of_mem _ ht)
  · intro v hy0 hbound c hc
    unfold ModeloPlanificacionBarcos.regla_dias_descanso at hc
    by_cases hguard : ((k : Int) ≤ (e.D : Int) - (e.T : Int) - (e.P : Int))
    · rw [if_pos hguard] at hc
      cases hc
      simp only [Constr.holds, decide_eq_true_eq]
      rw [evalQ_mapX, evalQ_restRhs, hy0]
      have hlen := list_sum_le_length
        (l := (List.range' (k + e.T) e.P).map (fun t => v (Atom.X i j t)))
        (by intro x hx
            obtain ⟨t, ht, rfl⟩ := List.mem_map.mp hx
            exact hbound t ht)
      simp only [List.length_map, List.length_range'] at hlen
      linarith
    · rw [if_neg hguard] at hc
      cases hc
  · intro hguard c hmem
    rw [hfam] at hmem
    obtain ⟨_, _, _, hrule⟩ := mem_fam3.mp hmem
    unfold ModeloPlanificacionBarcos.regla_dias_descanso at hrule
    rw [if_neg hguard] at hrule
    cases hrule

/-- Witness for C3 at the instance eResto (D=5, T=3, P=1), index
(1,1,1). -/
theorem C3_dias_descanso_testigo :
    ∃ c, ModeloPlanificacionBarcos.regla_dias_descanso eResto 1 1 1 = some c
      ∧ ((1, 1, 1), c) ∈ mResto.dias_descanso
      ∧ ∀ v : Atom → ℚ, Constr.holds v c = true →
          (∀ t ∈ List.range' (1 + eResto.T) eResto.P, 0 ≤ v (Atom.X 1 1 t)) →
          v (Atom.Y 1 1 1) = 1 →
          ∀ t ∈ List.range' (1 + eResto.T) eResto.P, v (Atom.X 1 1 t) = 0 :=
  (C3_dias_descanso eResto mResto (by rfl) 1 1 1
    (by decide) (by decide) (by decide)).1 (by decide)

theorem map_holds_castQ (v : Atom → ℤ) (o : Option Constr) :
    o.map (Constr.holds (castQ v)) = o.map (Constr.holdsZ v) := by
  cases o with
  | none => rfl
  | some c => simp [holds_castQ]

/-- C2 amended: for k at most D - T the stint-linkage constraint generated
at (i,j,k) is the inequality
(sum of X(i,j',t) over ships j' different from j and days t in k+1..k+T)
less-or-equal T*(1 - Y(i,j,k)) + X(i,j,k).  Because of the + X(i,j,k)
slack term, Y(i,j,k) = 1 forbids other-ship work in the window only when
additionally X(i,j,k) = 0: under those two values every rational point
with nonnegative X values satisfying the constraint works no other ship
in the window.  For k greater than D - T no constraint indexed (i,j,k)
is generated. -/
theorem C2_dias_consecutivos (e : Entrada)
    (m : ModeloPlanificacionBarcos.Modelo)
    (hm : ModeloPlanificacionBarcos.crear_modelo e = .ok m)
    (i j k : Nat) (hi : i ∈ mI e) (hj : j ∈ mJ e) (hk : k ∈ mK e) :
    (((k : Int) ≤ (e.D : Int) - (e.T : Int)) →
      ∃ c, ModeloPlanificacionBarcos.regla_dias_consecutivos e i j k = some c
        ∧ ((i, j, k), c) ∈ m.dias_consecutivos
        ∧ ∀ v : Atom → ℚ, Constr.holds v c = true →
            (∀ jp ∈ mJ e, ∀ t : Nat, 0 ≤ v (Atom.X i jp t)) →
            v (Atom.Y i j k) = 1 → v (Atom.X i j k) = 0 →
            ∀ jp ∈ mJ e, jp ≠ j → ∀ t ∈ List.range' (k + 1) e.T,
              v (Atom.X i jp t) = 0)
    ∧ (¬ ((k : Int) ≤ (e.D : Int) - (e.T : Int)) →
        ∀ c, ((i, j, k), c) ∉ m.dias_consecutivos) := by
  obtain ⟨d0, req, disp, hd0, hreq, hdisp, hcon⟩ :=
    ModeloPlanificacionBarcos.crear_modelo_ok hm
  have hfam : m.dias_consecutivos
      = fam3 (ModeloPlanificacionBarcos.regla_dias_consecutivos e)
          (mI e) (mJ e) (mK e) := by
    rw [hcon]
    rfl
  constructor
  · intro hguard
    have hrule : ModeloPlanificacionBarcos.regla_dias_consecutivos e i j k
        = some (Constr.le
            { terms := ((mJ e).filter (fun jp => jp ≠ j)).flatMap fun jp =>
                (List.range' (k + 1) e.T).map fun t => ((1 : Int), Atom.X i jp t)
              const := 0 }
            { terms := [(-(e.T : Int), Atom.Y i j k), ((1 : Int), Atom.X i j k)]
              const := (e.T : Int) }) := by
      unfold ModeloPlanificacionBarcos.regla_dias_consecutivos
      rw [if_pos hguard]
    refine ⟨_, hrule, ?_, ?_⟩
    · rw [hfam]
      exact mem_fam3.mpr ⟨hi, hj, hk, hrule⟩
    · intro v hv h0 hy1 hx0
      simp only [Constr.holds, decide_eq_true_eq] at hv
      rw [evalQ_flatMapX, evalQ_consecRhs, hy1, hx0] at hv
      have hzero : ∀ x ∈ ((mJ e).filter (fun jp => jp ≠ j)).flatMap
          (fun jp => (List.range' (k + 1) e.T).map
            (fun t => v (Atom.X i jp t))), x = 0 := by
        refine list_sum_nonpos_eq_zero ?_ ?_
        · intro x hx
          obtain ⟨jp, hjp, hx'⟩ := List.mem_flatMap.mp hx
          obtain ⟨t, ht, rfl⟩ := List.mem_map.mp hx'
          exact h0 jp (List.mem_of_mem_filter hjp) t
        · linarith
      intro jp hjp hne t ht
      refine hzero _ (List.mem_flatMap.mpr ⟨jp, ?_, List.mem_map_of_mem _ ht⟩)
      exact List.mem_filter.mpr ⟨hjp, by simpa using hne⟩
  · intro hguard c hmem
    rw [hfam] at hmem
    obtain ⟨_, _, _, hrule⟩ := mem_fam3.mp hmem
    unfold ModeloPlanificacionBarcos.regla_dias_consecutivos at hrule
    rw [if_neg hguard] at hrule
    cases hrule

/-- Witness for C2 at the two-ship instance eDos, index (1,2,1). -/
theorem C2_dias_consecutivos_testigo :
    ∃ c, ModeloPlanificacionBarcos.regla_dias_consecutivos eDos 1 2 1 = some c
      ∧ ((1, 2, 1), c) ∈ mDos.dias_consecutivos
      ∧ ∀ v : Atom → ℚ, Constr.holds v c = true →
          (∀ jp ∈ mJ eDos, ∀ t : Nat, 0 ≤ v (Atom.X 1 jp t)) →
          v (Atom.Y 1 2 1) = 1 → v (Atom.X 1 2 1) = 0 →
          ∀ jp ∈ mJ eDos, jp ≠ 2 → ∀ t ∈ List.range' (1 + 1) eDos.T,
            v (Atom.X 1 jp t) = 0 :=
  (C2_dias_consecutivos eDos mDos (by rfl) 1 2 1
    (by decide) (by decide) (by decide)).1 (by decide)

/-- C2 counterexample: in the instance eDos, at the point vDosz the
stint-linkage constraint generated at (1,1,1) is satisfied even though
Y(1,1,1) = 1 and person 1 works the other ship 2 on day 2, a day inside
the lookahead window k+1..k+T (the slack term + X(1,1,1) = 1 absorbs the
other-ship day); the whole model is feasible at this point.  This
contradicts the claim that working any other ship in the window while
Y(i,j,k) = 1 violates the generated constraint. -/
theorem C2_contraejemplo :
    (ModeloPlanificacionBarcos.regla_dias_consecutivos eDos 1 1 1).map
        (Constr.holds (castQ vDosz)) = some true
    ∧ castQ vDosz (Atom.Y 1 1 1) = 1
    ∧ castQ vDosz (Atom.X 1 2 2) = 1
    ∧ (2 : Nat) ≠ 1
    ∧ 2 ∈ List.range' (1 + 1) eDos.T
    ∧ ModeloPlanificacionBarcos.FeasibleB mDos (castQ vDosz) = true := by
  refine ⟨?_, by decide, by decide, by decide, by decide, ?_⟩
  · rw [map_holds_castQ]
    decide
  · rw [ModeloPlanificacionBarcos.Feasible_castQ]
    decide

/-- Objective lower bound for Scenario A: the three coverage constraints
(one per day, each requiring one person of the only role) force every
feasible rational point of mA to have objective value at least 3. -/
theorem scenarioA_cota (v : Atom → ℚ)
    (hv : ModeloPlanificacionBarcos.FeasibleB mA v = true) :
    (3 : ℚ) ≤ mA.OBJ.evalQ v := by
  have hreq : (mA.requisito_rol.all fun p => p.2.holds v) = true := by
    unfold ModeloPlanificacionBarcos.FeasibleB
      ModeloPlanificacionBarcos.FeasibleSinCambioB at hv
    simp only [Bool.and_eq_true] at hv
    exact hv.1.1.1.1.1.1.2
  have hall := List.all_eq_true.mp hreq
  have h1 := hall _ (show ((1, "capitan", (1 : Nat)), Constr.ge
      { terms := [((1 : Int), Atom.X 1 1 1), ((1 : Int), Atom.X 2 1 1)]
        const := 0 }
      { terms := [], const := 1 }) ∈ mA.requisito_rol by decide)
  have h2 := hall _ (show ((1, "capitan", (2 : Nat)), Constr.ge
      { terms := [((1 : Int), Atom.X 1 1 2), ((1 : Int), Atom.X 2 1 2)]
        const := 0 }
      { terms := [], const := 1 }) ∈ mA.requisito_rol by decide)
  have h3 := hall _ (show ((1, "capitan", (3 : Nat)), Constr.ge
      { terms := [((1 : Int), Atom.X 1 1 3), ((1 : Int), Atom.X 2 1 3)]
        const := 0 }
      { terms := [], const := 1 }) ∈ mA.requisito_rol by decide)
  have hobj : mA.OBJ =
      { terms := [((1 : Int), Atom.X 1 1 1), ((1 : Int), Atom.X 1 1 2),
          ((1 : Int), Atom.X 1 1 3), ((1 : Int), Atom.X 2 1 1),
          ((1 : Int), Atom.X 2 1 2), ((1 : Int), Atom.X 2 1 3)]
        const := 0 } := by decide
  simp only [Constr.holds, LinExpr.evalQ, List.map_cons, List.map_nil,
    List.sum_cons, List.sum_nil, decide_eq_true_eq, Int.cast_one,
    Int.cast_zero, one_mul, add_zero, zero_add] at h1 h2 h3
  rw [hobj]
  simp only [LinExpr.evalQ, List.map_cons, List.map_nil, List.sum_cons,
    List.sum_nil, Int.cast_one, Int.cast_zero, one_mul, add_zero, zero_add]
  linarith

/-- C8 counterexample: the point vSplitz (person 1 covers days 1 and 2,
person 2 covers day 3) is an optimal solution of the Scenario A instance
(feasible with the minimal objective value), yet NO single person covers
all 3 days in it, contradicting the claim that in the optimal solution
exactly one person covers all 3 days. -/
theorem C8_contraejemplo :
    SolucionOptimaA (castQ vSplitz)
    ∧ cuentaCubridores eA (castQ vSplitz) = 0 := by
  have hfeas : ModeloPlanificacionBarcos.FeasibleB mA (castQ vSplitz) = true := by
    rw [ModeloPlanificacionBarcos.Feasible_castQ]
    decide
  have hval : mA.OBJ.evalQ (castQ vSplitz) = 3 := by
    rw [evalQ_castQ, show mA.OBJ.evalZ vSplitz = 3 from by decide]
    norm_num
  refine ⟨⟨hfeas, ?_⟩, ?_⟩
  · intro w hw
    have := scenarioA_cota w hw
    linarith [hval.le]
  · unfold cuentaCubridores castQ
    decide

/-- C8 amended: the Scenario A instance is feasible, its optimal objective
value is 3 (a feasible point attains 3 and every feasible point has
objective at least 3), and SOME optimal solution has exactly one person
covering all 3 days (the point in which person 1 works every day); but
this does not hold of every optimal solution (see the counterexample). -/
theorem C8_escenarioA :
    ModeloPlanificacionBarcos.FeasibleB mA (castQ vA1z) = true
    ∧ mA.OBJ.evalQ (castQ vA1z) = 3
    ∧ cuentaCubridores eA (castQ vA1z) = 1
    ∧ ∀ v : Atom → ℚ, ModeloPlanificacionBarcos.FeasibleB mA v = true →
        (3 : ℚ) ≤ mA.OBJ.evalQ v := by
  refine ⟨?_, ?_, ?_, fun v hv => scenarioA_cota v hv⟩
  · rw [ModeloPlanificacionBarcos.Feasible_castQ]
    decide
  · rw [evalQ_castQ, show mA.OBJ.evalZ vA1z = 3 from by decide]
    norm_num
  · unfold cuentaCubridores castQ
    decide

/-- Witness for C8: the lower bound applied at the all-person-1 point. -/
theorem C8_escenarioA_testigo :
    (3 : ℚ) ≤ mA.OBJ.evalQ (castQ vA1z) :=
  C8_escenarioA.2.2.2 (castQ vA1z)
    (by rw [ModeloPlanificacionBarcos.Feasible_castQ]; decide)
